import Mathlib

/-!
Shallow embedding of the playback-clock and choreography-timeline engine of
`src/src/EditorPage.tsx` (cycle-choreo-author).

Conventions of the embedding:
* JS numbers that hold millisecond positions coming from media elements are
  modelled as `ℚ` (they may be fractional); `Math.floor` is `Int.floor`.
* Integer-valued JS numbers (Spotify positions, `Date.now()`, stored `t_ms`)
  are modelled as `Int`.
* `uid()` draws on `Math.random`, so freshly generated ids are passed in as
  explicit arguments (`fresh : String`, or `gen : Nat → String` for the
  per-entry ids of an import).
* React state cells (`steps`, `undoStack`, `redoStack`) become the fields of
  an explicit `EditorState`; each mutating callback becomes a function
  `EditorState → ... → EditorState`.
* JS truthiness tests on numbers (`durationMs || ...`) become `= 0` tests;
  truthiness of optional strings becomes `Option.isSome`/emptiness tests at
  the places noted.
-/

namespace CycleChoreo

/-- The `Exercise` union type of `EditorPage.tsx`. -/
inductive Exercise
  | flat
  | climb
  | sprint
  | recover
  | run
deriving DecidableEq

/-- The payload fields of a `Step` other than `id`, `t_ms`, `timestamp`:
the TS type `Omit<Step, "id" | "t_ms" | "timestamp">` taken by `upsertAtNow`.
The single caller (`markCueNow`) always passes every key, `note` possibly as
`undefined`, so `note` is an `Option String` that always overwrites. -/
structure Payload where
  exercise : Exercise
  gear : Int
  resistance : String
  position : String
  rpmMin : Int
  rpmMax : Int
  note : Option String
deriving DecidableEq

/-- The `Step` record of `EditorPage.tsx` (one cue). -/
structure Step where
  id : String
  t_ms : Int
  timestamp : String
  exercise : Exercise
  gear : Int
  resistance : String
  position : String
  rpmMin : Int
  rpmMax : Int
  note : Option String
deriving DecidableEq

/-- Source `clamp(n, min, max) = Math.max(min, Math.min(max, n))`. -/
def clamp (n mn mx : Int) : Int := max mn (min mx n)

/-- Constant `Number.MAX_SAFE_INTEGER`, used as the upper clamp bound when no track
duration is known (`durationMs || Number.MAX_SAFE_INTEGER`). -/
def MAX_SAFE : Int := 9007199254740991

/-- Function `Math.floor` on a (possibly fractional) JS number. -/
def jsFloor (q : ℚ) : Int := q.floor

/-- Decimal digits of `n`, padded on the left to two characters with `'0'`:
`String(s).padStart(2, "0")` for `s ≤ 59`. -/
def pad2 (n : Nat) : String := if n < 10 then "0" ++ toString n else toString n

/-- Source `formatTimestamp(ms)`: `M:SS` rendering of a millisecond offset. -/
def formatTimestamp (ms : Int) : String :=
  let totalSec : Nat := (max 0 (Int.fdiv ms 1000)).toNat
  let m : Nat := totalSec / 60
  let s : Nat := totalSec % 60
  toString m ++ ":" ++ pad2 s

/-- Value of a list of decimal digit characters. -/
def digitsVal (cs : List Char) : Nat :=
  cs.foldl (fun n c => n * 10 + (c.toNat - 48)) 0

/-- The regex `^(\d+):([0-5]\d)$` of `parseTimestamp`: a non-empty run of
digits, a colon, a character in `'0'..'5'` and one digit, end of string.
Returns the captured (minutes, seconds) on a match. -/
def tsMatch? (cs : List Char) : Option (Nat × Nat) :=
  let ds := cs.takeWhile Char.isDigit
  match cs.dropWhile Char.isDigit with
  | ':' :: c1 :: c2 :: [] =>
      if ds ≠ [] ∧ '0' ≤ c1 ∧ c1 ≤ '5' ∧ c2.isDigit then
        some (digitsVal ds, (c1.toNat - 48) * 10 + (c2.toNat - 48))
      else none
  | _ => none

/-- Source `parseTimestamp(ts)`: `(min * 60 + sec) * 1000` on a regex match,
`0` otherwise. -/
def parseTimestamp (ts : String) : Int :=
  match tsMatch? ts.toList with
  | some (m, s) => ((m * 60 + s) * 1000 : Int)
  | none => 0

/-- The three base refs of the Spotify position estimator
(`spotifyBasePosRef`, `spotifyBaseTsRef`, `spotifyPausedRef`) together with
`spotifyDurationRef`. -/
structure SpotifyRefs where
  basePos : Int
  baseTs : Int
  paused : Bool
  duration : Int
deriving DecidableEq

/-- Source `getSpotifyNowMs()`: the extrapolating position read over the base refs,
evaluated at wall-clock instant `dateNow` (`Date.now()`). -/
def getSpotifyNowMs (r : SpotifyRefs) (dateNow : Int) : Int :=
  if r.paused then r.basePos else r.basePos + max 0 (dateNow - r.baseTs)

/-- The `player_state_changed` listener body: a (non-null) state event
`(position, paused, duration)` received at wall-clock `dateNow` resets all
four base refs (`state.position ?? 0`, `Date.now()`, `!!state.paused`,
`state.duration ?? 0`). -/
def playerStateChanged (_r : SpotifyRefs) (position : Option Int)
    (paused : Bool) (duration : Option Int) (dateNow : Int) : SpotifyRefs :=
  { basePos := position.getD 0
    baseTs := dateNow
    paused := paused
    duration := duration.getD 0 }

/-- Source `getCurrentTimeMs()`: Spotify read when `useSpotify`, else
`audio.currentTime * 1000` when an audio element exists, else `0`.
`audioCurrentTime` is `some` exactly when `audioRef.current` is non-null. -/
def getCurrentTimeMs (useSpotify : Bool) (r : SpotifyRefs) (dateNow : Int)
    (audioCurrentTime : Option ℚ) : ℚ :=
  if useSpotify then (getSpotifyNowMs r dateNow : ℚ)
  else
    match audioCurrentTime with
    | some ct => ct * 1000
    | none => 0

/-- The Spotify branch of the `requestAnimationFrame` `tick` body: the value
stored into `nowMs`, `clamp(Math.floor(n), 0, durationMs ||
spotifyDurationRef.current || Number.MAX_SAFE_INTEGER)` (all quantities here
are integers, so `Math.floor` is the identity). -/
def tickSpotifyNowMs (r : SpotifyRefs) (dateNow : Int) (durationMs : Int) : Int :=
  let n := getSpotifyNowMs r dateNow
  let mx := if durationMs ≠ 0 then durationMs
    else if r.duration ≠ 0 then r.duration else MAX_SAFE
  clamp n 0 mx

/-- The snap window constant `snapMs = 250` of `upsertAtNow`. -/
def snapMs : Int := 250

/-- A `Step` built from an id, a time and a wholesale payload:
`{...s, ...stepPatch, t_ms: t, timestamp: formatTimestamp(t)}` overwrites
every field of `s` except `id`, and the created-step branch passes the same
fields with `id: uid()`. -/
def mkStepWithId (id : String) (t : Int) (p : Payload) : Step :=
  { id := id
    t_ms := t
    timestamp := formatTimestamp t
    exercise := p.exercise
    gear := p.gear
    resistance := p.resistance
    position := p.position
    rpmMin := p.rpmMin
    rpmMax := p.rpmMax
    note := p.note }

/-- The core of `upsertAtNow`'s `setSteps` updater before sorting:
`findIndex` of the first step within `±snapMs` of `t`; if found, that step is
replaced in place by the merged step (id kept, payload overwritten); if no
step matches, a fresh step is appended at the end. -/
def upsertList : List Step → Int → Payload → String → List Step
  | [], t, p, fresh => [mkStepWithId fresh t p]
  | s :: rest, t, p, fresh =>
      if |s.t_ms - t| ≤ snapMs then mkStepWithId s.id t p :: rest
      else s :: upsertList rest t p fresh

/-- The comparison `(a, b) => a.t_ms - b.t_ms` of the JS `sort` calls, as the
ascending total preorder it induces. -/
def stepLE (a b : Step) : Prop := a.t_ms ≤ b.t_ms

instance : DecidableRel stepLE := fun a b => inferInstanceAs (Decidable (a.t_ms ≤ b.t_ms))

instance : IsTotal Step stepLE := ⟨fun a b => le_total a.t_ms b.t_ms⟩

instance : IsTrans Step stepLE := ⟨fun _ _ _ h h' => le_trans h h'⟩

/-- The JS sort `[...].sort((a, b) => a.t_ms - b.t_ms)`: `Array.prototype.sort` is a stable sort, so it is embedded as the stable ascending-by-`t_ms` insertion
sort (any two stable sorts agree on every input). -/
def sortSteps (l : List Step) : List Step :=
  l.insertionSort stepLE

/-- The snapped mark time of `upsertAtNow`:
`clamp(Math.floor(getCurrentTimeMs()), 0, durationMs || Number.MAX_SAFE_INTEGER)`. -/
def snapT (now : ℚ) (durationMs : Int) : Int :=
  clamp (jsFloor now) 0 (if durationMs = 0 then MAX_SAFE else durationMs)

/-- Source `upsertAtNow(stepPatch)` acting on the step list, with the current
position `now` and the fresh id made explicit. -/
def upsertAtNow (steps : List Step) (now : ℚ) (durationMs : Int)
    (p : Payload) (fresh : String) : List Step :=
  sortSteps (upsertList steps (snapT now durationMs) p fresh)

/-- A `Partial<Step>` as actually passed to `updateStep` by its call sites
(the per-row inputs of the step list): every call patches exactly one of
`timestamp`, `exercise`, `gear`, `rpmMin`, `rpmMax`, `position`, `note`;
no call site ever patches `id`, `t_ms` or `resistance`. -/
structure StepPatch where
  timestamp : Option String := none
  exercise : Option Exercise := none
  gear : Option Int := none
  position : Option String := none
  rpmMin : Option Int := none
  rpmMax : Option Int := none
  note : Option String := none
deriving DecidableEq

/-- The spread `{...s, ...patch}` of `updateStep`: present patch keys
overwrite the step's fields. -/
def applyPatch (s : Step) (p : StepPatch) : Step :=
  { s with
    timestamp := p.timestamp.getD s.timestamp
    exercise := p.exercise.getD s.exercise
    gear := p.gear.getD s.gear
    position := p.position.getD s.position
    rpmMin := p.rpmMin.getD s.rpmMin
    rpmMax := p.rpmMax.getD s.rpmMax
    note := match p.note with
      | some v => some v
      | none => s.note }

/-- The per-step body of `updateStep`'s `map`: merge the patch; if a truthy
(present, non-empty) `timestamp` was patched, re-derive `t_ms` through
`parseTimestamp`; re-format the display timestamp from `t_ms`; clamp `gear`
to `[1,30]` and the rpm bounds to `[40,160]`; re-derive `resistance` from the
clamped gear. -/
def updateStepFn (p : StepPatch) (s : Step) : Step :=
  let u0 := applyPatch s p
  let u1 := match p.timestamp with
    | some ts => if ts ≠ "" then { u0 with t_ms := parseTimestamp ts } else u0
    | none => u0
  let u2 := { u1 with timestamp := formatTimestamp u1.t_ms }
  let u3 := { u2 with
    gear := clamp u2.gear 1 30
    rpmMin := clamp u2.rpmMin 40 160
    rpmMax := clamp u2.rpmMax 40 160 }
  { u3 with resistance := "L" ++ toString u3.gear }

/-- Source `updateStep(id, patch)` on the step list: patch every step whose `id`
matches, then re-sort. -/
def updateStep (steps : List Step) (id : String) (p : StepPatch) : List Step :=
  sortSteps (steps.map fun s => if s.id = id then updateStepFn p s else s)

/-- Source `deleteStep(id)` on the step list (no re-sort in the source). -/
def deleteStep (steps : List Step) (id : String) : List Step :=
  steps.filter (fun s => s.id ≠ id)

/-- Source `nudgeStep(id, deltaMs)` on the step list: shift the matching step by
`deltaMs`, clamped to `[0, durationMs || Number.MAX_SAFE_INTEGER]`, then
re-sort. -/
def nudgeStep (steps : List Step) (id : String) (deltaMs durationMs : Int) :
    List Step :=
  sortSteps (steps.map fun s =>
    if s.id = id then
      let t := clamp (s.t_ms + deltaMs) 0
        (if durationMs = 0 then MAX_SAFE else durationMs)
      { s with t_ms := t, timestamp := formatTimestamp t }
    else s)

/-- The three React state cells of the editing session: `steps`, `undoStack`,
`redoStack`. -/
structure EditorState where
  steps : List Step
  undoStack : List (List Step)
  redoStack : List (List Step)
deriving DecidableEq

/-- Source `pushUndo(prevSteps)`: `[...u.slice(-30), prevSteps]` (keep the most
recent 30 snapshots, then append) and clear the redo stack. -/
def pushUndoState (st : EditorState) (prevSteps : List Step) : EditorState :=
  { st with
    undoStack := st.undoStack.drop (st.undoStack.length - 30) ++ [prevSteps]
    redoStack := [] }

/-- Source `undo()`: no-op on an empty undo stack; otherwise pop its last snapshot
into `steps`, pushing the current `steps` onto the redo stack. -/
def undoState (st : EditorState) : EditorState :=
  match st.undoStack.getLast? with
  | none => st
  | some prev =>
      { steps := prev
        undoStack := st.undoStack.dropLast
        redoStack := st.redoStack ++ [st.steps] }

/-- Source `redo()`: no-op on an empty redo stack; otherwise pop its last snapshot
into `steps`, pushing the current `steps` onto the undo stack (uncapped, as
in the source). -/
def redoState (st : EditorState) : EditorState :=
  match st.redoStack.getLast? with
  | none => st
  | some next =>
      { steps := next
        undoStack := st.undoStack ++ [st.steps]
        redoStack := st.redoStack.dropLast }

/-- A mark (`upsertAtNow` inside `setSteps`): push the pre-mutation steps as
a history entry, then store the upserted, re-sorted list. -/
def markState (st : EditorState) (now : ℚ) (durationMs : Int) (p : Payload)
    (fresh : String) : EditorState :=
  { pushUndoState st st.steps with
    steps := upsertAtNow st.steps now durationMs p fresh }

/-- The `KeyM` case of the global `onKeyDown` handler: it invokes
`markCueNow()` (hence `upsertAtNow`) unconditionally — there is no
`canControl` guard on this path, unlike the Mark button. -/
def onKeyM (st : EditorState) (useSpotify : Bool) (r : SpotifyRefs)
    (dateNow : Int) (audioCurrentTime : Option ℚ) (durationMs : Int)
    (p : Payload) (fresh : String) : EditorState :=
  markState st (getCurrentTimeMs useSpotify r dateNow audioCurrentTime)
    durationMs p fresh

/-- One entry of the `data.steps` array of an imported session document.
`isObj` is the JS truthiness of the entry (the `s &&` test); each field is
`some` when present with the modelled type (`t_ms` when `typeof s.t_ms ===
"number"`, `id` when `s.id` is truthy). -/
structure RawStep where
  isObj : Bool
  t_ms : Option ℚ
  id : Option String
  exercise : Option Exercise
  gear : Option Int
  resistance : Option String
  position : Option String
  rpmMin : Option Int
  rpmMax : Option Int
  note : Option String
deriving DecidableEq

/-- The `.map` body of `importSession`: coerce one kept raw entry to a
`Step`, defaulting each missing field as in the source; `gen i` is the
`uid()` drawn for the `i`-th kept entry when it lacks a truthy id. -/
def convRaw (gen : Nat → String) (i : Nat) (s : RawStep) : Step :=
  { id := s.id.getD (gen i)
    t_ms := jsFloor (s.t_ms.getD 0)
    timestamp := formatTimestamp (jsFloor (s.t_ms.getD 0))
    exercise := s.exercise.getD Exercise.flat
    gear := clamp (s.gear.getD 5) 1 30
    resistance := s.resistance.getD ("L" ++ toString (s.gear.getD 5))
    position := s.position.getD "Ride easy"
    rpmMin := clamp (s.rpmMin.getD 65) 40 160
    rpmMax := clamp (s.rpmMax.getD 75) 40 160
    note := s.note }

/-- The parsed session document, as far as `importSession` inspects it:
`steps` is `some` exactly when `Array.isArray(data.steps)`. -/
structure ImportDoc where
  steps : Option (List RawStep)
  track : Option String := none
  source : Option String := none

/-- The validating/filtering part of `importSession`: `none` input stands for
a parsed document that is itself null/undefined (`!data`). A missing or
non-array `steps` throws; otherwise entries without a numeric `t_ms` (and
falsy entries) are dropped, the rest coerced and sorted. -/
def importSteps (data : Option ImportDoc) (gen : Nat → String) :
    Except String (List Step) :=
  match data with
  | none => .error "Invalid file: missing steps[]"
  | some d =>
      match d.steps with
      | none => .error "Invalid file: missing steps[]"
      | some raw =>
          .ok (sortSteps
            ((raw.filter fun s => s.isObj && s.t_ms.isSome).mapIdx
              (fun i s => convRaw gen i s)))

/-- Source `importSession`'s effect on the editing session: on a validation throw
(caught by every caller) the state is untouched; on success the pre-import
steps are pushed as a history entry and the imported list replaces `steps`. -/
def importApply (st : EditorState) (data : Option ImportDoc)
    (gen : Nat → String) : EditorState :=
  match importSteps data gen with
  | .error _ => st
  | .ok imported => { pushUndoState st st.steps with steps := imported }

/-- The list of cue ids of a timeline, in order. -/
def stepIds (l : List Step) : List String := l.map Step.id

/-- The timeline invariant of the spec: the stored sequence is sorted
ascending by `t_ms` and the ids are pairwise distinct. -/
def TimelineInv (l : List Step) : Prop :=
  l.Pairwise (fun a b => a.t_ms ≤ b.t_ms) ∧ (stepIds l).Nodup

/-- A sample payload used by concrete witnesses. -/
def samplePayload : Payload :=
  { exercise := Exercise.flat
    gear := 5
    resistance := "L5"
    position := "Ride easy"
    rpmMin := 65
    rpmMax := 75
    note := none }

/-- A second, distinct sample payload used by concrete witnesses. -/
def samplePayload2 : Payload :=
  { exercise := Exercise.climb
    gear := 7
    resistance := "L7"
    position := "Seated Climb"
    rpmMin := 80
    rpmMax := 90
    note := some "push" }

/-- An imported entry with id "a" at 1000 ms; all other fields absent. -/
def rawA1000 : RawStep :=
  ⟨true, some 1000, some "a", none, none, none, none, none, none, none⟩

/-- An imported entry that also carries id "a", at 2000 ms. -/
def rawA2000 : RawStep :=
  ⟨true, some 2000, some "a", none, none, none, none, none, none, none⟩

/-- An imported entry lacking a numeric `t_ms`. -/
def rawNoT : RawStep :=
  ⟨true, none, some "z", none, none, none, none, none, none, none⟩

/-! Helper lemmas shared by the claim theorems. -/

theorem sortSteps_perm (l : List Step) : (sortSteps l).Perm l :=
  List.perm_insertionSort stepLE l

theorem sortSteps_sorted (l : List Step) :
    (sortSteps l).Pairwise (fun a b => a.t_ms ≤ b.t_ms) :=
  List.sorted_insertionSort stepLE l

theorem stepIds_sortSteps (l : List Step) : (stepIds (sortSteps l)).Perm (stepIds l) :=
  (sortSteps_perm l).map Step.id

theorem stepIds_map {f : Step → Step} (hf : ∀ s, (f s).id = s.id)
    (l : List Step) : stepIds (l.map f) = stepIds l := by
  simp only [stepIds, List.map_map]
  exact List.map_congr_left fun s _ => hf s

theorem upsertList_of_match {t : Int} {p : Payload} {f : String} :
    ∀ {l : List Step}, (∃ s ∈ l, |s.t_ms - t| ≤ snapMs) →
      (upsertList l t p f).length = l.length ∧
      stepIds (upsertList l t p f) = stepIds l ∧
      ∃ s ∈ l, |s.t_ms - t| ≤ snapMs ∧ mkStepWithId s.id t p ∈ upsertList l t p f := by
  intro l
  induction l with
  | nil => intro h; simp at h
  | cons s rest ih =>
    intro h
    by_cases hs : |s.t_ms - t| ≤ snapMs
    · refine ⟨by simp [upsertList, hs], ?_, s, List.mem_cons_self s rest, hs,
        by simp [upsertList, hs]⟩
      simp [upsertList, hs, stepIds, mkStepWithId]
    · have h' : ∃ x ∈ rest, |x.t_ms - t| ≤ snapMs := by
        rcases h with ⟨x, hx, hxt⟩
        rcases List.mem_cons.mp hx with rfl | hx'
        · exact absurd hxt hs
        · exact ⟨x, hx', hxt⟩
      obtain ⟨hlen, hids, x, hx, hxt, hmem⟩ := ih h'
      refine ⟨by simp [upsertList, hs, hlen], ?_,
        x, List.mem_cons_of_mem s hx, hxt, ?_⟩
      · simp [upsertList, hs, stepIds] at hids ⊢
        exact hids
      · simp [upsertList, hs]
        exact Or.inr hmem

theorem upsertList_of_nomatch {t : Int} {p : Payload} {f : String} :
    ∀ {l : List Step}, (∀ s ∈ l, ¬ |s.t_ms - t| ≤ snapMs) →
      upsertList l t p f = l ++ [mkStepWithId f t p] := by
  intro l
  induction l with
  | nil => intro _; rfl
  | cons s rest ih =>
    intro h
    have hs : ¬ |s.t_ms - t| ≤ snapMs := h s (List.mem_cons_self s rest)
    have h' : ∀ x ∈ rest, ¬ |x.t_ms - t| ≤ snapMs :=
      fun x hx => h x (List.mem_cons_of_mem s hx)
    simp [upsertList, hs, ih h']

theorem upsertList_exists_t {t : Int} {p : Payload} {f : String} :
    ∀ l : List Step, ∃ s ∈ upsertList l t p f, s.t_ms = t := by
  intro l
  induction l with
  | nil => exact ⟨mkStepWithId f t p, by simp [upsertList], rfl⟩
  | cons s rest ih =>
    by_cases hs : |s.t_ms - t| ≤ snapMs
    · exact ⟨mkStepWithId s.id t p, by simp [upsertList, hs], rfl⟩
    · obtain ⟨x, hx, hxt⟩ := ih
      exact ⟨x, by simp [upsertList, hs, hx], hxt⟩

theorem updateStepFn_id (p : StepPatch) (s : Step) :
    (updateStepFn p s).id = s.id := by
  unfold updateStepFn applyPatch
  cases p.timestamp with
  | none => rfl
  | some ts => by_cases h : ts = "" <;> simp [h]

theorem formatTimestamp_zero : formatTimestamp 0 = "0:00" := by decide

instance (l : List Step) : Decidable (TimelineInv l) := by
  unfold TimelineInv
  infer_instance

/-! Claim theorems. -/

/-- C1: a mark at position `now_ms` with payload `p` computes
`t = clamp(floor(now_ms), 0, durationMs or unbounded)`; if some cue lies
within 250 ms of `t`, that cue's `t_ms` is reset to `t` and its payload is
replaced wholesale by `p` with its id preserved and no cue added; otherwise
exactly one new cue with the freshly generated id is added at `t`. -/
theorem C1_mark_upsert_semantics (steps : List Step) (now : ℚ)
    (durationMs : Int) (p : Payload) (fresh : String) :
    ((∃ s ∈ steps, |s.t_ms - snapT now durationMs| ≤ snapMs) →
        (upsertAtNow steps now durationMs p fresh).length = steps.length ∧
        (stepIds (upsertAtNow steps now durationMs p fresh)).Perm
          (stepIds steps) ∧
        ∃ s ∈ steps, |s.t_ms - snapT now durationMs| ≤ snapMs ∧
          mkStepWithId s.id (snapT now durationMs) p ∈
            upsertAtNow steps now durationMs p fresh) ∧
    ((∀ s ∈ steps, ¬ |s.t_ms - snapT now durationMs| ≤ snapMs) →
        (upsertAtNow steps now durationMs p fresh).Perm
          (steps ++ [mkStepWithId fresh (snapT now durationMs) p])) := by
  constructor
  · intro h
    obtain ⟨hlen, hids, x, hx, hxt, hmem⟩ :=
      upsertList_of_match (t := snapT now durationMs) (p := p) (f := fresh) h
    refine ⟨?_, ?_, x, hx, hxt, ?_⟩
    · simp only [upsertAtNow]
      rw [(sortSteps_perm _).length_eq, hlen]
    · simp only [upsertAtNow]
      have hp := stepIds_sortSteps (upsertList steps (snapT now durationMs) p fresh)
      rwa [hids] at hp
    · simp only [upsertAtNow]
      exact (sortSteps_perm _).mem_iff.mpr hmem
  · intro h
    simp only [upsertAtNow]
    rw [upsertList_of_nomatch h]
    exact sortSteps_perm _

/-- C1 witness: a mark at 200 ms merges into the cue at 100 ms; a mark at
1000 ms appends a fresh cue. -/
theorem C1_mark_upsert_semantics_witness :
    ((upsertAtNow [mkStepWithId "a" 100 samplePayload] 200 0 samplePayload2
        "b").length = [mkStepWithId "a" 100 samplePayload].length ∧
      (stepIds (upsertAtNow [mkStepWithId "a" 100 samplePayload] 200 0
        samplePayload2 "b")).Perm
          (stepIds [mkStepWithId "a" 100 samplePayload]) ∧
      ∃ s ∈ [mkStepWithId "a" 100 samplePayload],
        |s.t_ms - snapT 200 0| ≤ snapMs ∧
        mkStepWithId s.id (snapT 200 0) samplePayload2 ∈
          upsertAtNow [mkStepWithId "a" 100 samplePayload] 200 0
            samplePayload2 "b") ∧
    (upsertAtNow [mkStepWithId "a" 100 samplePayload] 1000 0 samplePayload2
        "b").Perm
      ([mkStepWithId "a" 100 samplePayload] ++
        [mkStepWithId "b" (snapT 1000 0) samplePayload2]) :=
  ⟨(C1_mark_upsert_semantics [mkStepWithId "a" 100 samplePayload] 200 0
      samplePayload2 "b").1 (by decide),
   (C1_mark_upsert_semantics [mkStepWithId "a" 100 samplePayload] 1000 0
      samplePayload2 "b").2 (by decide)⟩

/-- C2: immediately after a remote `player_state_changed` event reporting
position `p` is processed — read at the same wall-clock instant `t` at which
the base was recorded — the position read returns exactly `p`, whether the
event reports paused or playing. -/
theorem C2_event_resets_position_exactly (r : SpotifyRefs) (p : Int)
    (paused : Bool) (duration : Option Int) (t : Int) :
    getSpotifyNowMs (playerStateChanged r (some p) paused duration t) t = p := by
  cases paused <;> simp [getSpotifyNowMs, playerStateChanged]

/-- C3 counterexample: importing a document whose two entries carry the same
id "a" produces a stored timeline whose ids are not pairwise distinct, so
the invariant does not hold after every mutating operation. -/
theorem C3_import_breaks_id_uniqueness :
    ¬ (stepIds (importApply ⟨[], [], []⟩
        (some ⟨some [rawA1000, rawA2000], none, none⟩)
        (fun _ => "g")).steps).Nodup := by
  decide

/-- C3 (amended): mark/upsert (with a fresh id not already present),
update-by-id, delete-by-id, nudge and clear each preserve the invariant that
the stored sequence is sorted ascending by `t_ms` with pairwise-distinct
ids; import always yields a sequence sorted ascending by `t_ms`, but id
uniqueness after import holds only if the imported entries' ids are
distinct. -/
theorem C3_mutations_preserve_inv :
    (∀ (l : List Step) (now : ℚ) (dur : Int) (p : Payload) (fresh : String),
        TimelineInv l → fresh ∉ stepIds l →
        TimelineInv (upsertAtNow l now dur p fresh)) ∧
    (∀ (l : List Step) (id : String) (patch : StepPatch),
        TimelineInv l → TimelineInv (updateStep l id patch)) ∧
    (∀ (l : List Step) (id : String),
        TimelineInv l → TimelineInv (deleteStep l id)) ∧
    (∀ (l : List Step) (id : String) (delta dur : Int),
        TimelineInv l → TimelineInv (nudgeStep l id delta dur)) ∧
    TimelineInv [] ∧
    (∀ (data : Option ImportDoc) (gen : Nat → String) (v : List Step),
        importSteps data gen = Except.ok v →
        v.Pairwise (fun a b => a.t_ms ≤ b.t_ms)) := by
  refine ⟨?_, ?_, ?_, ?_, ?_, ?_⟩
  · intro l now dur p fresh hinv hfresh
    refine ⟨sortSteps_sorted _, ?_⟩
    simp only [upsertAtNow]
    rw [(stepIds_sortSteps (upsertList l (snapT now dur) p fresh)).nodup_iff]
    by_cases hm : ∃ s ∈ l, |s.t_ms - snapT now dur| ≤ snapMs
    · rw [(upsertList_of_match hm).2.1]
      exact hinv.2
    · have hm' : ∀ s ∈ l, ¬ |s.t_ms - snapT now dur| ≤ snapMs :=
        fun s hs hle => hm ⟨s, hs, hle⟩
      rw [upsertList_of_nomatch hm']
      simp only [stepIds, List.map_append, List.map_cons, List.map_nil]
      rw [List.nodup_append]
      refine ⟨hinv.2, List.nodup_singleton _, ?_⟩
      intro a ha hb
      simp only [mkStepWithId, List.mem_singleton] at hb
      subst hb
      exact hfresh ha
  · intro l id patch hinv
    refine ⟨sortSteps_sorted _, ?_⟩
    simp only [updateStep]
    rw [(stepIds_sortSteps _).nodup_iff, stepIds_map]
    · exact hinv.2
    · intro s
      by_cases h : s.id = id <;> simp [h, updateStepFn_id]
  · intro l id hinv
    exact ⟨hinv.1.sublist (List.filter_sublist l),
      hinv.2.sublist ((List.filter_sublist l).map Step.id)⟩
  · intro l id delta dur hinv
    refine ⟨sortSteps_sorted _, ?_⟩
    simp only [nudgeStep]
    rw [(stepIds_sortSteps _).nodup_iff, stepIds_map]
    · exact hinv.2
    · intro s
      by_cases h : s.id = id <;> simp [h]
  · exact ⟨List.Pairwise.nil, List.nodup_nil⟩
  · intro data gen v hv
    match data with
    | none => simp [importSteps] at hv
    | some d =>
      match hd : d.steps with
      | none => simp [importSteps, hd] at hv
      | some raw =>
        simp only [importSteps, hd, Except.ok.injEq] at hv
        rw [← hv]
        exact sortSteps_sorted _

/-- C3 witness: the amended preservation statements evaluated at a concrete
one-cue timeline and a concrete import document. -/
theorem C3_mutations_preserve_inv_witness :
    TimelineInv (upsertAtNow [mkStepWithId "a" 100 samplePayload] 1000 0
      samplePayload2 "b") ∧
    TimelineInv (updateStep [mkStepWithId "a" 100 samplePayload] "a"
      { timestamp := some "2:00" }) ∧
    TimelineInv (deleteStep [mkStepWithId "a" 100 samplePayload] "a") ∧
    TimelineInv (nudgeStep [mkStepWithId "a" 100 samplePayload] "a" 250 0) ∧
    TimelineInv [] ∧
    (sortSteps (([rawA1000, rawNoT].filter fun s =>
        s.isObj && s.t_ms.isSome).mapIdx
        (fun i s => convRaw (fun _ => "g") i s))).Pairwise
      (fun a b => a.t_ms ≤ b.t_ms) :=
  ⟨C3_mutations_preserve_inv.1 [mkStepWithId "a" 100 samplePayload] 1000 0
      samplePayload2 "b" (by decide) (by decide),
   C3_mutations_preserve_inv.2.1 [mkStepWithId "a" 100 samplePayload] "a"
      { timestamp := some "2:00" } (by decide),
   C3_mutations_preserve_inv.2.2.1 [mkStepWithId "a" 100 samplePayload] "a"
      (by decide),
   C3_mutations_preserve_inv.2.2.2.1 [mkStepWithId "a" 100 samplePayload]
      "a" 250 0 (by decide),
   C3_mutations_preserve_inv.2.2.2.2.1,
   C3_mutations_preserve_inv.2.2.2.2.2
      (some ⟨some [rawA1000, rawNoT], none, none⟩) (fun _ => "g") _ rfl⟩

/-- C4 counterexample: marking at 0 ms, then 300 ms, then 150 ms (the third
mark re-snaps the first cue to 150 ms) reaches a timeline holding two
distinct cues only 150 ms apart, so the claimed "no two cues within 250 ms"
invariant fails on states reachable by marking alone. -/
theorem C4_reachable_cues_within_window :
    ∃ c1 ∈ upsertAtNow (upsertAtNow (upsertAtNow [] 0 0 samplePayload "a")
        300 0 samplePayload "b") 150 0 samplePayload "c",
      ∃ c2 ∈ upsertAtNow (upsertAtNow (upsertAtNow [] 0 0 samplePayload "a")
        300 0 samplePayload "b") 150 0 samplePayload "c",
      c1.id ≠ c2.id ∧ |c1.t_ms - c2.t_ms| ≤ snapMs := by
  decide

/-- C4 (amended): a mark whose snapped time lies within 250 ms of an
existing cue never adds a cue (the count is unchanged), and in particular a
repeated mark at the same instant never accumulates a duplicate; but the
editing operations do not maintain "no two distinct cues within 250 ms" as a
state invariant. -/
theorem C4_snap_collapses_marks :
    (∀ (steps : List Step) (now : ℚ) (dur : Int) (p : Payload)
        (fresh : String),
        (∃ s ∈ steps, |s.t_ms - snapT now dur| ≤ snapMs) →
        (upsertAtNow steps now dur p fresh).length = steps.length) ∧
    (∀ (steps : List Step) (now : ℚ) (dur : Int) (p p2 : Payload)
        (f f2 : String),
        (upsertAtNow (upsertAtNow steps now dur p f) now dur p2 f2).length =
          (upsertAtNow steps now dur p f).length) := by
  have key : ∀ (steps : List Step) (now : ℚ) (dur : Int) (p : Payload)
      (fresh : String),
      (∃ s ∈ steps, |s.t_ms - snapT now dur| ≤ snapMs) →
      (upsertAtNow steps now dur p fresh).length = steps.length := by
    intro steps now dur p fresh h
    simp only [upsertAtNow]
    rw [(sortSteps_perm _).length_eq, (upsertList_of_match h).1]
  refine ⟨key, ?_⟩
  intro steps now dur p p2 f f2
  apply key
  obtain ⟨x, hx, hxt⟩ := upsertList_exists_t
    (t := snapT now dur) (p := p) (f := f) steps
  refine ⟨x, ?_, by simp [hxt, snapMs]⟩
  simp only [upsertAtNow]
  exact (sortSteps_perm _).mem_iff.mpr hx

/-- C4 witness: a second mark 200 ms after a cue at 100 ms leaves the cue
count unchanged. -/
theorem C4_snap_collapses_marks_witness :
    (upsertAtNow [mkStepWithId "a" 100 samplePayload] 200 0 samplePayload2
      "b").length = [mkStepWithId "a" 100 samplePayload].length :=
  C4_snap_collapses_marks.1 [mkStepWithId "a" 100 samplePayload] 200 0
    samplePayload2 "b" (by decide)

/-- C5: for every editor state, a single mark followed by undo restores
exactly the pre-mark timeline, and a subsequent redo restores exactly the
post-mark timeline. -/
theorem C5_mark_undo_redo_roundtrip (st : EditorState) (now : ℚ)
    (durationMs : Int) (p : Payload) (fresh : String) :
    (undoState (markState st now durationMs p fresh)).steps = st.steps ∧
    (redoState (undoState (markState st now durationMs p fresh))).steps =
      (markState st now durationMs p fresh).steps := by
  constructor
  · simp [markState, pushUndoState, undoState]
  · simp [markState, pushUndoState, undoState, redoState]

/-- C6: an import document that is null or whose `steps` is missing or not
an array is rejected wholesale (an error is thrown) with the editing state
untouched; given an array, exactly the entries lacking a numeric `t_ms` are
dropped and the remaining entries are imported without aborting. -/
theorem C6_import_validation :
    (∀ (st : EditorState) (gen : Nat → String),
        importApply st none gen = st ∧
        importSteps none gen =
          Except.error "Invalid file: missing steps[]") ∧
    (∀ (st : EditorState) (d : ImportDoc) (gen : Nat → String),
        d.steps = none →
        importApply st (some d) gen = st ∧
        importSteps (some d) gen =
          Except.error "Invalid file: missing steps[]") ∧
    (∀ (d : ImportDoc) (raw : List RawStep) (gen : Nat → String),
        d.steps = some raw →
        ∃ v, importSteps (some d) gen = Except.ok v ∧
          v.Perm ((raw.filter fun s => s.isObj && s.t_ms.isSome).mapIdx
            (fun i s => convRaw gen i s)) ∧
          v.length =
            (raw.filter fun s => s.isObj && s.t_ms.isSome).length) := by
  refine ⟨fun st gen => ⟨rfl, rfl⟩, ?_, ?_⟩
  · intro st d gen hd
    constructor
    · simp [importApply, importSteps, hd]
    · simp [importSteps, hd]
  · intro d raw gen hd
    refine ⟨sortSteps ((raw.filter fun s => s.isObj && s.t_ms.isSome).mapIdx
      (fun i s => convRaw gen i s)), by simp [importSteps, hd], ?_, ?_⟩
    · exact sortSteps_perm _
    · rw [(sortSteps_perm _).length_eq, List.length_mapIdx]

/-- C6 witness: the three branches at a concrete state, a steps-less
document and a two-entry document with one entry lacking a numeric `t_ms`. -/
theorem C6_import_validation_witness :
    (importApply ⟨[mkStepWithId "a" 100 samplePayload], [], []⟩ none
        (fun _ => "g") = ⟨[mkStepWithId "a" 100 samplePayload], [], []⟩ ∧
      importSteps none (fun _ => "g") =
        Except.error "Invalid file: missing steps[]") ∧
    (importApply ⟨[mkStepWithId "a" 100 samplePayload], [], []⟩
        (some ⟨none, none, none⟩) (fun _ => "g") =
        ⟨[mkStepWithId "a" 100 samplePayload], [], []⟩ ∧
      importSteps (some ⟨none, none, none⟩) (fun _ => "g") =
        Except.error "Invalid file: missing steps[]") ∧
    ∃ v, importSteps (some ⟨some [rawA1000, rawNoT], none, none⟩)
        (fun _ => "g") = Except.ok v ∧
      v.Perm (([rawA1000, rawNoT].filter fun s =>
        s.isObj && s.t_ms.isSome).mapIdx
        (fun i s => convRaw (fun _ => "g") i s)) ∧
      v.length = ([rawA1000, rawNoT].filter fun s =>
        s.isObj && s.t_ms.isSome).length :=
  ⟨C6_import_validation.1 ⟨[mkStepWithId "a" 100 samplePayload], [], []⟩
      (fun _ => "g"),
   C6_import_validation.2.1 ⟨[mkStepWithId "a" 100 samplePayload], [], []⟩
      ⟨none, none, none⟩ (fun _ => "g") rfl,
   C6_import_validation.2.2 ⟨some [rawA1000, rawNoT], none, none⟩
      [rawA1000, rawNoT] (fun _ => "g") rfl⟩

/-- C7: with no clock source attached (`useSpotify` false, no audio element)
the position read returns 0, but the keyboard mark shortcut is not a no-op:
it calls `markCueNow` with no `canControl` guard and adds a cue at 0 ms to
the empty timeline, contradicting the claimed graceful rejection. -/
theorem C7_keyM_marks_without_clock :
    getCurrentTimeMs false ⟨0, 0, true, 0⟩ 0 none = 0 ∧
    (onKeyM ⟨[], [], []⟩ false ⟨0, 0, true, 0⟩ 0 none 0 samplePayload
        "a").steps = [mkStepWithId "a" 0 samplePayload] := by
  exact ⟨rfl, by decide⟩

/-- C8 counterexample: with a known duration of 2000 ms and a playing base
of 1000 ms recorded at wall-clock 0, the raw position read at wall-clock
5000 returns 6000 — beyond the known duration — so "every value returned by
the position read lies in [0, duration]" fails. -/
theorem C8_raw_read_exceeds_duration :
    getSpotifyNowMs ⟨1000, 0, false, 2000⟩ 5000 = 6000 ∧
    getCurrentTimeMs true ⟨1000, 0, false, 2000⟩ 5000 none = (6000 : ℚ) ∧
    (2000 : Int) < 6000 := by
  refine ⟨by decide, ?_, by decide⟩
  norm_num [getCurrentTimeMs, getSpotifyNowMs]

/-- C8 (amended): the raw estimator read is unclamped, but the per-frame
value stored by the tick loop and the snapped mark time are clamped: both
are always ≥ 0, and both are ≤ `durationMs` whenever a positive duration is
known. -/
theorem C8_clamped_reads_in_range :
    (∀ (r : SpotifyRefs) (dateNow durationMs : Int),
        0 ≤ tickSpotifyNowMs r dateNow durationMs) ∧
    (∀ (r : SpotifyRefs) (dateNow durationMs : Int), 0 < durationMs →
        tickSpotifyNowMs r dateNow durationMs ≤ durationMs) ∧
    (∀ (now : ℚ) (durationMs : Int), 0 ≤ snapT now durationMs) ∧
    (∀ (now : ℚ) (durationMs : Int), 0 < durationMs →
        snapT now durationMs ≤ durationMs) := by
  refine ⟨?_, ?_, ?_, ?_⟩
  · intro r dateNow durationMs
    simp only [tickSpotifyNowMs, clamp]
    exact le_max_left 0 _
  · intro r dateNow durationMs h
    have hne : durationMs ≠ 0 := ne_of_gt h
    simp only [tickSpotifyNowMs, clamp, hne, if_true, ne_eq,
      not_false_eq_true]
    omega
  · intro now durationMs
    simp only [snapT, clamp]
    exact le_max_left 0 _
  · intro now durationMs h
    have hne : durationMs ≠ 0 := ne_of_gt h
    simp only [snapT, clamp, hne, if_false]
    omega

/-- C8 amended witness: the clamped tick value and mark time at a concrete
over-running state with duration 2000 ms. -/
theorem C8_clamped_reads_in_range_witness :
    0 ≤ tickSpotifyNowMs ⟨1000, 0, false, 2000⟩ 5000 2000 ∧
    tickSpotifyNowMs ⟨1000, 0, false, 2000⟩ 5000 2000 ≤ 2000 ∧
    0 ≤ snapT 6000 2000 ∧
    snapT 6000 2000 ≤ 2000 :=
  ⟨C8_clamped_reads_in_range.1 ⟨1000, 0, false, 2000⟩ 5000 2000,
   C8_clamped_reads_in_range.2.1 ⟨1000, 0, false, 2000⟩ 5000 2000
     (by decide),
   C8_clamped_reads_in_range.2.2.1 6000 2000,
   C8_clamped_reads_in_range.2.2.2 6000 2000 (by decide)⟩

/-- C9 counterexample: pushing onto an undo stack that already holds 30
snapshots keeps the last 30 and appends, producing 31 entries — the undo
sequence's length does exceed 30. -/
theorem C9_undo_stack_reaches_31 :
    30 < ((pushUndoState ⟨[], List.replicate 30 [], []⟩ []).undoStack).length := by
  decide

/-- C9 (amended): every history push appends the pre-mutation snapshot after
retaining only the 30 most recent existing entries — so the undo sequence's
length is `min old 30 + 1`, never exceeding 31 (not 30) — and it
unconditionally clears the redo sequence. -/
theorem C9_push_caps_and_clears_redo (st : EditorState) (prev : List Step) :
    (pushUndoState st prev).undoStack.length =
      min st.undoStack.length 30 + 1 ∧
    (pushUndoState st prev).undoStack.length ≤ 31 ∧
    (pushUndoState st prev).undoStack.getLast? = some prev ∧
    (pushUndoState st prev).undoStack.dropLast.Sublist st.undoStack ∧
    (pushUndoState st prev).redoStack = [] := by
  refine ⟨?_, ?_, ?_, ?_, rfl⟩
  · simp only [pushUndoState, List.length_append, List.length_drop,
      List.length_cons, List.length_nil]
    omega
  · simp only [pushUndoState, List.length_append, List.length_drop,
      List.length_cons, List.length_nil]
    omega
  · simp [pushUndoState]
  · simp only [pushUndoState, List.dropLast_concat]
    exact List.drop_sublist _ _

/-- C10: updating a cue with a truthy timestamp string that fails the
`M:SS` regex makes `parseTimestamp` return 0, so the edited cue's `t_ms`
becomes 0 and its display timestamp becomes "0:00". -/
theorem C10_invalid_timestamp_resets_to_zero (steps : List Step)
    (id : String) (patch : StepPatch) (ts : String)
    (hts : patch.timestamp = some ts) (hne : ts ≠ "")
    (hnm : tsMatch? ts.toList = none) :
    parseTimestamp ts = 0 ∧
    ∀ c ∈ updateStep steps id patch, c.id = id →
      c.t_ms = 0 ∧ c.timestamp = "0:00" := by
  have hparse : parseTimestamp ts = 0 := by
    unfold parseTimestamp
    rw [hnm]
  refine ⟨hparse, ?_⟩
  intro c hc hcid
  have hc' : c ∈ steps.map fun s =>
      if s.id = id then updateStepFn patch s else s :=
    (sortSteps_perm _).subset hc
  obtain ⟨s, hs, rfl⟩ := List.mem_map.mp hc'
  by_cases h : s.id = id
  · simp only [h, if_true]
    constructor
    · show (updateStepFn patch s).t_ms = 0
      simp [updateStepFn, applyPatch, hts, hne, hparse]
    · show (updateStepFn patch s).timestamp = "0:00"
      simp [updateStepFn, applyPatch, hts, hne, hparse, formatTimestamp_zero]
  · simp only [h, if_false] at hcid

/-- C10 witness: editing the cue "a" with the malformed timestamp "oops"
drives its time to 0 and its display to "0:00". -/
theorem C10_invalid_timestamp_resets_to_zero_witness :
    parseTimestamp "oops" = 0 ∧
    ∀ c ∈ updateStep [mkStepWithId "a" 5000 samplePayload] "a"
        { timestamp := some "oops" }, c.id = "a" →
      c.t_ms = 0 ∧ c.timestamp = "0:00" :=
  C10_invalid_timestamp_resets_to_zero [mkStepWithId "a" 5000 samplePayload]
    "a" { timestamp := some "oops" } "oops" rfl (by decide) (by decide)

end CycleChoreo
